import Mathlib

/-!
# Verification of the payroll calculation subsystem

A shallow embedding, in Lean 4, of the payroll feature of an HR backend
(`PayrollService` in `payroll.service.ts` and
`HolidaysService.isEligibleForHolidayPay` in `holidays.service.ts`),
together with theorems settling the specification claims about it.

Modelling conventions:
* Timestamps are integers counting minutes since the Unix epoch
  (1970-01-01T00:00 UTC, a Thursday).  JavaScript `Date` day extraction
  (`toISOString().split("T")[0]`) corresponds to flooring division by 1440,
  and `getDay()` to `(dayIndex + 4) % 7` (0 = Sunday).
* Hours, pay rates and amounts are rationals (`ℚ`); the JavaScript source
  uses IEEE doubles, but every claim settled below is about the exact
  arithmetic structure of the algorithm, and every concrete counterexample
  uses values (multiples of 1/60 combined with the exact constants 1.5 and 2)
  on which double arithmetic is exact as well.
* Database reads performed inside a service method are hoisted into explicit
  parameters or into a `DB` record of in-memory tables; database writes
  become functional updates of that record.  A write that may fail at the
  storage layer (the error paths the services catch and propagate) is
  modelled by an explicit failure oracle parameter.
* `Option` models SQL `NULL`; JavaScript truthiness tests on nullable
  numeric fields (`!tc.totalMinutes`, `!employee.payRate`) therefore test
  for `none` *or* for the value `0`, exactly as the source does.
-/

/-! ## Time helpers -/

/-- Minutes in one civil day. -/
def minutesPerDay : Int := 1440

/-- The calendar day of a timestamp, as counted from the epoch: the model of
`date.toISOString().split("T")[0]` (UTC day extraction). -/
def dayIndex (t : Int) : Int := t / minutesPerDay

/-- JavaScript `Date.getDay()`: 0 = Sunday … 6 = Saturday.  The epoch day
(1970-01-01) was a Thursday, hence the offset 4. -/
def dayOfWeek (t : Int) : Int := (dayIndex t + 4) % 7

/-- `PayrollService.getWeekStart`: midnight of the Sunday on or before the
given instant (`d.setDate(d.getDate() - d.getDay()); d.setHours(0,0,0,0)`). -/
def getWeekStart (t : Int) : Int := (dayIndex t - dayOfWeek t) * minutesPerDay

/-! ## Data model (the slices of the Prisma schema the payroll code reads) -/

/-- `ScheduleType` enum. -/
inductive ScheduleType where
  | REGULAR
  | OVERTIME
  | HOLIDAY
deriving DecidableEq, Repr

/-- `PayPeriodStatus` enum. -/
inductive PayPeriodStatus where
  | DRAFT
  | PROCESSING
  | COMPLETED
  | PAID
deriving DecidableEq, Repr

/-- `PayPeriodType` enum (informational only). -/
inductive PayPeriodType where
  | SEMI_MONTHLY
  | BI_WEEKLY
  | MONTHLY
deriving DecidableEq, Repr

/-- The slice of a `Schedule` row selected by the payroll queries. -/
structure Schedule where
  scheduleType : ScheduleType
  isStatutoryHoliday : Bool
deriving DecidableEq, Repr

/-- The slice of a `TimeClock` row selected by the payroll queries.
`totalMinutes` is a nullable non-negative integer (`Int?` in the schema,
always a clock-out minus clock-in duration). -/
structure TimeClock where
  userId : Nat
  clockInTime : Int
  clockOutTime : Option Int
  totalMinutes : Option Nat
  schedule : Option Schedule
deriving DecidableEq, Repr

/-- The result record built by `calculateEmployeePay`. -/
structure PayCalculationResult where
  regularHours : ℚ
  overtimeHours : ℚ
  holidayHours : ℚ
  grossPay : ℚ
deriving DecidableEq, Repr

/-! ## `calculateEmployeePay` (payroll.service.ts, lines 444–586)

The private method reads the statutory-holiday table (for the pay period's
date range) and calls `holidaysService.isEligibleForHolidayPay`; those two
reads are hoisted into the parameters `holidayDates` (the day indexes of the
fetched holiday rows) and `isEligible` (the eligibility predicate applied to
the day index of the ISO day string, i.e. to midnight of that day). -/

/-- Step-1 accumulator: the two JavaScript objects `dailyHours` /
`weeklyHours` (association lists in insertion order, as JS object iteration
for non-numeric string keys) and the three hour buckets of `result`. -/
structure Step1State where
  daily : List (Int × ℚ)
  weekly : List (Int × ℚ)
  regular : ℚ
  overtime : ℚ
  holiday : ℚ
deriving Repr

/-- `map[key] = (map[key] ?? 0) + v` on a JS object: update in place if the
key exists, else append (insertion order preserved). -/
def bump (k : Int) (v : ℚ) : List (Int × ℚ) → List (Int × ℚ)
  | [] => [(k, v)]
  | (k', v') :: rest =>
      if k = k' then (k', v' + v) :: rest else (k', v') :: bump k v rest

/-- One iteration of the Step-1 loop `for (const tc of timeClocks)`:
skip records with a falsy `clockOutTime` or `totalMinutes`, accumulate the
day/week totals, then classify the record into the holiday / pre-approved
overtime / regular bucket. -/
def processClock (holidayDates : List Int) (isEligible : Int → Bool)
    (s : Step1State) (tc : TimeClock) : Step1State :=
  match tc.clockOutTime, tc.totalMinutes with
  | some _, some m =>
    if m = 0 then s
    else
      let hours : ℚ := (m : ℚ) / 60
      let day := dayIndex tc.clockInTime
      let weekStart := dayIndex (getWeekStart tc.clockInTime)
      let s :=
        { s with
          daily := bump day hours s.daily
          weekly := bump weekStart hours s.weekly }
      let isHoliday :=
        holidayDates.contains day ||
          (match tc.schedule with
           | some sch => sch.isStatutoryHoliday
           | none => false)
      if isHoliday then
        if isEligible day then { s with holiday := s.holiday + hours }
        else { s with regular := s.regular + hours }
      else
        match tc.schedule with
        | some sch =>
          if sch.scheduleType = ScheduleType.OVERTIME then
            { s with overtime := s.overtime + hours }
          else { s with regular := s.regular + hours }
        | none => { s with regular := s.regular + hours }
  | _, _ => s

/-- The whole Step-1 classification pass. -/
def step1 (holidayDates : List Int) (isEligible : Int → Bool)
    (timeClocks : List TimeClock) : Step1State :=
  timeClocks.foldl (processClock holidayDates isEligible)
    ⟨[], [], 0, 0, 0⟩

/-- Step-2 daily pass over `dailyHours` (regular, overtime) accumulator:
skip statutory-holiday days (lookup membership only), then apply the
8-hour / 12-hour daily thresholds. -/
def dailyOTStep (holidayDates : List Int) (acc : ℚ × ℚ) (e : Int × ℚ) :
    ℚ × ℚ :=
  if holidayDates.contains e.1 then acc
  else
    let hoursForDay := e.2
    if hoursForDay ≤ 8 then (acc.1 + hoursForDay, acc.2)
    else if hoursForDay ≤ 12 then
      (acc.1 + 8, acc.2 + (hoursForDay - 8) * (3 / 2))
    else
      (acc.1 + 8, acc.2 + 4 * (3 / 2) + (hoursForDay - 12) * 2)

/-- Step-2 weekly pass over `weeklyHours`: for each week over 40 hours, add
`max(0, (total − 40) − overtimeSoFar/1.5)` extra overtime at 1.5× and
subtract it from the regular hours. -/
def weeklyOTStep (acc : ℚ × ℚ) (e : Int × ℚ) : ℚ × ℚ :=
  let totalWeeklyHours := e.2
  if 40 < totalWeeklyHours then
    let weeklyOvertimeHours := totalWeeklyHours - 40
    let additionalWeeklyOT := max 0 (weeklyOvertimeHours - acc.2 / (3 / 2))
    if 0 < additionalWeeklyOT then
      (acc.1 - additionalWeeklyOT, acc.2 + additionalWeeklyOT * (3 / 2))
    else acc
  else acc

/-- `PayrollService.calculateEmployeePay` with its two database reads
hoisted into `holidayDates` / `isEligible` (see section comment). -/
def calculateEmployeePay (timeClocks : List TimeClock) (hourlyRate : ℚ)
    (overtimeEnabled : Bool) (holidayDates : List Int)
    (isEligible : Int → Bool) : PayCalculationResult :=
  let s := step1 holidayDates isEligible timeClocks
  let (reg, ot) :=
    if overtimeEnabled then
      (s.weekly.foldl weeklyOTStep
        (s.daily.foldl (dailyOTStep holidayDates) (0, 0)))
    else (s.regular, s.overtime)
  { regularHours := reg
    overtimeHours := ot
    holidayHours := s.holiday
    grossPay :=
      reg * hourlyRate + ot * hourlyRate + s.holiday * hourlyRate * (3 / 2) }

/-! ## Persistent entities and the in-memory database

The services read and write Prisma tables; the embedding keeps the rows the
payroll feature touches in one record of in-memory tables.  `nextPeriodId` /
`nextCalcId` model the unique id generation of the database. -/

/-- `PayPeriod` row. -/
structure PayPeriod where
  id : Nat
  startDate : Int
  endDate : Int
  type : PayPeriodType
  status : PayPeriodStatus
deriving DecidableEq, Repr

/-- The slice of a `User` row the payroll feature reads. -/
structure User where
  id : Nat
  hireDate : Int
  terminationDate : Option Int
  payRate : Option ℚ
  overtimeEnabled : Bool
deriving DecidableEq, Repr

/-- `PayCalculation` row. -/
structure PayCalculation where
  id : Nat
  payPeriodId : Nat
  userId : Nat
  regularHours : ℚ
  overtimeHours : ℚ
  holidayHours : ℚ
  grossPay : ℚ
deriving DecidableEq, Repr

/-- `PayAdjustment` row. -/
structure PayAdjustment where
  payCalculationId : Nat
  amount : ℚ
  reason : String
  createdBy : String
deriving DecidableEq, Repr

/-- The in-memory database. `statutoryHolidays` holds the `date` timestamps
of the statutory-holiday rows. -/
structure DB where
  payPeriods : List PayPeriod
  users : List User
  timeClocks : List TimeClock
  statutoryHolidays : List Int
  payCalculations : List PayCalculation
  payAdjustments : List PayAdjustment
  nextPeriodId : Nat
  nextCalcId : Nat
deriving Repr

/-- The error taxonomy of the HTTP layer: `NotFoundError`,
`ValidationError`, and generic persistence failures propagated unchanged. -/
inductive PError where
  | notFound
  | validation
  | generic
deriving DecidableEq, Repr

/-- `prisma.payPeriod.findUnique({ where: { id } })`. -/
def findPeriod (db : DB) (id : Nat) : Option PayPeriod :=
  db.payPeriods.find? (fun p => p.id == id)

/-- `prisma.payCalculation.findUnique({ where: { id } })`. -/
def findCalc (db : DB) (id : Nat) : Option PayCalculation :=
  db.payCalculations.find? (fun c => c.id == id)

/-- `prisma.user.findUnique({ where: { id } })`. -/
def findUser (db : DB) (id : Nat) : Option User :=
  db.users.find? (fun u => u.id == id)

/-- `prisma.payPeriod.update({ where: { id }, data: { status } })`. -/
def setPeriodStatus (db : DB) (id : Nat) (st : PayPeriodStatus) : DB :=
  { db with
    payPeriods := db.payPeriods.map
      (fun p => if p.id = id then { p with status := st } else p) }

/-- The observable status of a stored pay period. -/
def periodStatus (db : DB) (id : Nat) : Option PayPeriodStatus :=
  (findPeriod db id).map (·.status)

/-! ## `HolidaysService.isEligibleForHolidayPay` (holidays.service.ts, 238–286) -/

/-- `isEligibleForHolidayPay(userId, holidayDate)`: hired at least 30 days
before the holiday, and at least 15 distinct worked calendar days inside the
half-open trailing 30-day window.  The prisma query's
`distinct: ["clockInTime"]` is the inner `dedup`; the JS `Set` of ISO day
strings is the outer `dedup` over day indexes. -/
def isEligibleForHolidayPay (db : DB) (userId : Nat) (holidayDate : Int) :
    Bool :=
  match findUser db userId with
  | none => false
  | some user =>
    let thirtyDaysBefore := holidayDate - 30 * minutesPerDay
    if thirtyDaysBefore < user.hireDate then false
    else
      let timeClocks := db.timeClocks.filter (fun tc =>
        tc.userId == userId && decide (thirtyDaysBefore ≤ tc.clockInTime) &&
          decide (tc.clockInTime < holidayDate) && tc.clockOutTime.isSome)
      let daysWorked := ((timeClocks.map (·.clockInTime)).dedup.map
        dayIndex).dedup
      decide (15 ≤ daysWorked.length)

/-- Modelled from the spec wording of §4.1 (refinement target for C8): the
distinct calendar days with a completed clock-in during the half-open window
`[holidayDate − 30d, holidayDate)`. -/
def distinctWorkedDays (db : DB) (userId : Nat) (holidayDate : Int) :
    List Int :=
  ((db.timeClocks.filter (fun tc =>
      tc.userId == userId &&
        decide (holidayDate - 30 * minutesPerDay ≤ tc.clockInTime) &&
        decide (tc.clockInTime < holidayDate) && tc.clockOutTime.isSome)).map
    (fun tc => dayIndex tc.clockInTime)).dedup

/-! ## `PayrollService.calculatePayroll` (payroll.service.ts, 327–436) -/

/-- The active-employee condition of the orchestrator's `user.findMany`:
no termination date, or termination date strictly after the period end. -/
def activeEmployeeFilter (endDate : Int) (u : User) : Bool :=
  match u.terminationDate with
  | none => true
  | some t => decide (endDate < t)

/-- The orchestrator's per-employee `timeClock.findMany`: the employee's
completed records clocked in inside `[startDate, endDate]` (inclusive). -/
def clocksForEmployee (timeClocks : List TimeClock) (userId : Nat)
    (startDate endDate : Int) : List TimeClock :=
  timeClocks.filter (fun tc =>
    tc.userId == userId && decide (startDate ≤ tc.clockInTime) &&
      decide (tc.clockInTime ≤ endDate) && tc.clockOutTime.isSome)

/-- The `statutoryHoliday.findMany` of `calculateEmployeePay`: the day
indexes of the holidays dated inside the pay period (inclusive). -/
def fetchHolidayDates (db : DB) (startDate endDate : Int) : List Int :=
  (db.statutoryHolidays.filter (fun d =>
    decide (startDate ≤ d) && decide (d ≤ endDate))).map dayIndex

/-- Whether the sequential loop creates a `PayCalculation` for an employee:
a truthy pay rate (JS `!employee.payRate` skips both `null` and `0`) and a
non-empty completed-clock list for the period. -/
def employeeProcessed (timeClocks : List TimeClock) (period : PayPeriod)
    (u : User) : Bool :=
  (match u.payRate with
   | none => false
   | some rate => !(rate == 0)) &&
    !((clocksForEmployee timeClocks u.id period.startDate
        period.endDate).length == 0)

/-- The `for (const employee of employees)` loop inside the `try` block.
`createFails` is the storage-failure oracle for the
`payCalculation.create` write: a `true` answer is the exception the
surrounding `catch` observes. -/
def payrollLoop (period : PayPeriod) (createFails : Nat → Bool) :
    List User → DB → Nat → DB × Except PError Nat
  | [], db, count => (db, Except.ok count)
  | u :: rest, db, count =>
    match u.payRate with
    | none => payrollLoop period createFails rest db count
    | some rate =>
      if rate = 0 then payrollLoop period createFails rest db count
      else
        let timeClocks :=
          clocksForEmployee db.timeClocks u.id period.startDate period.endDate
        if timeClocks.length = 0 then payrollLoop period createFails rest db count
        else
          let pc := calculateEmployeePay timeClocks rate u.overtimeEnabled
            (fetchHolidayDates db period.startDate period.endDate)
            (fun d => isEligibleForHolidayPay db u.id (d * minutesPerDay))
          if createFails u.id then (db, Except.error PError.generic)
          else
            payrollLoop period createFails rest
              { db with
                payCalculations := db.payCalculations ++
                  [⟨db.nextCalcId, period.id, u.id, pc.regularHours,
                    pc.overtimeHours, pc.holidayHours, pc.grossPay⟩]
                nextCalcId := db.nextCalcId + 1 }
              (count + 1)

/-- `calculatePayroll(payPeriodId)`: look the period up, fetch the active
employees, set status PROCESSING, run the loop; on success set COMPLETED
and return the count, on an exception set DRAFT and propagate. -/
def calculatePayroll (db : DB) (payPeriodId : Nat) (createFails : Nat → Bool) :
    DB × Except PError Nat :=
  match findPeriod db payPeriodId with
  | none => (db, Except.error PError.notFound)
  | some payPeriod =>
    let employees := db.users.filter (activeEmployeeFilter payPeriod.endDate)
    let db1 := setPeriodStatus db payPeriodId PayPeriodStatus.PROCESSING
    match payrollLoop payPeriod createFails employees db1 0 with
    | (db2, Except.ok count) =>
      (setPeriodStatus db2 payPeriodId PayPeriodStatus.COMPLETED,
        Except.ok count)
    | (db2, Except.error e) =>
      (setPeriodStatus db2 payPeriodId PayPeriodStatus.DRAFT, Except.error e)

/-! ## `PayrollService.addAdjustment` (payroll.service.ts, 603–650) -/

/-- `PayAdjustmentDto`. -/
structure PayAdjustmentDto where
  payCalculationId : Nat
  amount : ℚ
  reason : String
  createdBy : String

/-- `addAdjustment(dto)`: `NotFound` if the calculation is absent,
`ValidationError` if the owning pay period is PAID, then two *separate*
writes: `payAdjustment.create` followed by the `grossPay` increment (the
source wraps them in one `try` but not in a transaction).  `incrementFails`
is the storage-failure oracle for the second write; when it fires, the
already-created adjustment row remains. A calculation whose `payPeriodId`
matches no stored period crashes the prisma `include` (generic error)
and cannot occur on a well-formed store. -/
def addAdjustment (db : DB) (dto : PayAdjustmentDto) (incrementFails : Bool) :
    DB × Except PError Unit :=
  match findCalc db dto.payCalculationId with
  | none => (db, Except.error PError.notFound)
  | some payCalculation =>
    match findPeriod db payCalculation.payPeriodId with
    | none => (db, Except.error PError.generic)
    | some payPeriod =>
      if payPeriod.status = PayPeriodStatus.PAID then
        (db, Except.error PError.validation)
      else
        let db1 := { db with
          payAdjustments := db.payAdjustments ++
            [⟨dto.payCalculationId, dto.amount, dto.reason, dto.createdBy⟩] }
        if incrementFails then (db1, Except.error PError.generic)
        else
          ({ db1 with
              payCalculations := db1.payCalculations.map (fun c =>
                if c.id = dto.payCalculationId then
                  { c with grossPay := c.grossPay + dto.amount }
                else c) },
            Except.ok ())

/-! ## `PayrollService.markAsPaid` (payroll.service.ts, 655–685) -/

/-- `markAsPaid(id)`: `NotFound` if absent, `ValidationError` unless the
status is exactly COMPLETED, else set PAID. -/
def markAsPaid (db : DB) (id : Nat) : DB × Except PError Unit :=
  match findPeriod db id with
  | none => (db, Except.error PError.notFound)
  | some payPeriod =>
    if payPeriod.status ≠ PayPeriodStatus.COMPLETED then
      (db, Except.error PError.validation)
    else (setPeriodStatus db id PayPeriodStatus.PAID, Except.ok ())

/-! ## `PayrollService.create` / `update` / `delete` (payroll.service.ts,
118–180, 185–288, 293–322) -/

/-- `CreatePayPeriodDto` (dates already parsed to timestamps). -/
structure CreatePayPeriodDto where
  startDate : Int
  endDate : Int
  type : PayPeriodType
  status : Option PayPeriodStatus

/-- `UpdatePayPeriodDto` (`Partial<BasePayPeriodDto>`: every field,
*including `status`*, is optional). -/
structure UpdatePayPeriodDto where
  startDate : Option Int
  endDate : Option Int
  type : Option PayPeriodType
  status : Option PayPeriodStatus

/-- The three-way interval-overlap disjunction of the `findFirst` queries:
new start inside the stored period, new end inside it, or the new range
containing it (all boundary-inclusive). -/
def overlapTest (startDateTime endDateTime : Int) (p : PayPeriod) : Bool :=
  (decide (p.startDate ≤ startDateTime) && decide (startDateTime ≤ p.endDate)) ||
    (decide (p.startDate ≤ endDateTime) && decide (endDateTime ≤ p.endDate)) ||
    (decide (startDateTime ≤ p.startDate) && decide (p.endDate ≤ endDateTime))

/-- `create(dto)`: reject `startDate >= endDate`, reject a three-way overlap
with any stored period, else insert with default status DRAFT. -/
def createPayPeriod (db : DB) (dto : CreatePayPeriodDto) :
    DB × Except PError Unit :=
  if dto.endDate ≤ dto.startDate then (db, Except.error PError.validation)
  else if (db.payPeriods.find? (overlapTest dto.startDate dto.endDate)).isSome
  then (db, Except.error PError.validation)
  else
    ({ db with
        payPeriods := db.payPeriods ++
          [⟨db.nextPeriodId, dto.startDate, dto.endDate, dto.type,
            dto.status.getD PayPeriodStatus.DRAFT⟩]
        nextPeriodId := db.nextPeriodId + 1 },
      Except.ok ())

/-- `prisma.payPeriod.update({ data: { ...dto } })`: every provided field is
written, the rest keep their stored values. -/
def applyUpdateDto (dto : UpdatePayPeriodDto) (p : PayPeriod) : PayPeriod :=
  { p with
    startDate := dto.startDate.getD p.startDate
    endDate := dto.endDate.getD p.endDate
    type := dto.type.getD p.type
    status := dto.status.getD p.status }

/-- `update(id, dto)`: `NotFound` if absent; `ValidationError` on a
date/type change when calculations exist and the status is not DRAFT; when
a date changes, re-validate ordering and the three-way overlap excluding the
period itself; then write the provided fields. -/
def updatePayPeriod (db : DB) (id : Nat) (dto : UpdatePayPeriodDto) :
    DB × Except PError Unit :=
  match findPeriod db id with
  | none => (db, Except.error PError.notFound)
  | some payPeriod =>
    if db.payCalculations.any (fun c => c.payPeriodId == id) &&
        !(payPeriod.status == PayPeriodStatus.DRAFT) &&
        (dto.startDate.isSome || dto.endDate.isSome || dto.type.isSome) then
      (db, Except.error PError.validation)
    else if dto.startDate.isSome || dto.endDate.isSome then
      let startDateTime := dto.startDate.getD payPeriod.startDate
      let endDateTime := dto.endDate.getD payPeriod.endDate
      if endDateTime ≤ startDateTime then (db, Except.error PError.validation)
      else if (db.payPeriods.find? (fun p =>
          !(p.id == id) && overlapTest startDateTime endDateTime p)).isSome
      then (db, Except.error PError.validation)
      else
        ({ db with
            payPeriods := db.payPeriods.map (fun p =>
              if p.id = id then applyUpdateDto dto p else p) },
          Except.ok ())
    else
      ({ db with
          payPeriods := db.payPeriods.map (fun p =>
            if p.id = id then applyUpdateDto dto p else p) },
        Except.ok ())

/-- `delete(id)`: `NotFound` if absent, `ValidationError` if the period owns
any calculation, else remove the row. -/
def deletePayPeriod (db : DB) (id : Nat) : DB × Except PError Unit :=
  match findPeriod db id with
  | none => (db, Except.error PError.notFound)
  | some _ =>
    if db.payCalculations.any (fun c => c.payPeriodId == id) then
      (db, Except.error PError.validation)
    else
      ({ db with payPeriods := db.payPeriods.filter (fun p => !(p.id == id)) },
        Except.ok ())

/-! ## The operation alphabet of the payroll feature -/

/-- Every state-changing entry point of the payroll feature. -/
inductive PayrollOp where
  | create (dto : CreatePayPeriodDto)
  | update (id : Nat) (dto : UpdatePayPeriodDto)
  | delete (id : Nat)
  | calculate (payPeriodId : Nat) (createFails : Nat → Bool)
  | adjust (dto : PayAdjustmentDto) (incrementFails : Bool)
  | markPaid (id : Nat)

/-- The state reached after an operation (successful or failed). -/
def applyOp : PayrollOp → DB → DB
  | .create dto, db => (createPayPeriod db dto).1
  | .update id dto, db => (updatePayPeriod db id dto).1
  | .delete id, db => (deletePayPeriod db id).1
  | .calculate pid f, db => (calculatePayroll db pid f).1
  | .adjust dto f, db => (addAdjustment db dto f).1
  | .markPaid id, db => (markAsPaid db id).1

/-- Boundary-inclusive intersection of two stored date ranges. -/
def periodsIntersect (p q : PayPeriod) : Prop :=
  p.startDate ≤ q.endDate ∧ q.startDate ≤ p.endDate

instance (p q : PayPeriod) : Decidable (periodsIntersect p q) := by
  unfold periodsIntersect; infer_instance

/-- Well-formedness of the pay-period table: pairwise non-overlapping date
ranges, distinct ids, and ids below the id generator. -/
def PayPeriodsWF (db : DB) : Prop :=
  db.payPeriods.Pairwise (fun p q => ¬ periodsIntersect p q) ∧
    (db.payPeriods.map (·.id)).Nodup ∧
    ∀ p ∈ db.payPeriods, p.id < db.nextPeriodId

instance (db : DB) : Decidable (PayPeriodsWF db) := by
  unfold PayPeriodsWF; infer_instance

/-! ## Definitions written from the claims' wording (refinement targets) -/

/-- Modelled from the claim wording of C7: the total hours of the completed
clock records linked to an OVERTIME-type schedule whose day is not treated
as a statutory holiday (lookup membership or schedule flag). -/
def overtimeScheduleSum (holidayDates : List Int) : List TimeClock → ℚ
  | [] => 0
  | tc :: rest =>
    (match tc.clockOutTime, tc.totalMinutes, tc.schedule with
     | some _, some m, some sch =>
       if sch.scheduleType = ScheduleType.OVERTIME ∧
           ¬(holidayDates.contains (dayIndex tc.clockInTime) = true ∨
             sch.isStatutoryHoliday = true)
       then (m : ℚ) / 60 else 0
     | _, _, _ => 0) + overtimeScheduleSum holidayDates rest

/-- Clear the statutory-holiday flag of a record's linked schedule (used to
state that Step-2 reconciliation never reads that flag). -/
def clearHolidayFlag (tc : TimeClock) : TimeClock :=
  { tc with
    schedule := tc.schedule.map (fun sch =>
      { sch with isStatutoryHoliday := false }) }

/-! ## Concrete inputs used by counterexamples and witnesses

Day 3 of the epoch (1970-01-04) was a Sunday, so days 4–8 are the Monday to
Friday of one Sunday-to-Saturday workweek. -/

/-- One completed 41-hour record clocked in on Monday (day 4). -/
def exC1clocks : List TimeClock :=
  [⟨1, 1440 * 4, some (1440 * 4 + 2460), some 2460, none⟩]

/-- Five 9-hour records, Monday to Friday (days 4–8) of one workweek. -/
def exC2clocks : List TimeClock :=
  [⟨1, 1440 * 4 + 540, some (1440 * 4 + 1080), some 540, none⟩,
   ⟨1, 1440 * 5 + 540, some (1440 * 5 + 1080), some 540, none⟩,
   ⟨1, 1440 * 6 + 540, some (1440 * 6 + 1080), some 540, none⟩,
   ⟨1, 1440 * 7 + 540, some (1440 * 7 + 1080), some 540, none⟩,
   ⟨1, 1440 * 8 + 540, some (1440 * 8 + 1080), some 540, none⟩]

/-- One 8-hour record on day 4 whose linked schedule is flagged
`isStatutoryHoliday` although day 4 is not in the statutory lookup. -/
def exC3clocks : List TimeClock :=
  [⟨1, 1440 * 4 + 540, some (1440 * 4 + 1020), some 480,
    some ⟨ScheduleType.REGULAR, true⟩⟩]

/-- One 8-hour record on day 4 linked to an OVERTIME-type schedule, with
day 4 present in the statutory lookup. -/
def exC7clocks : List TimeClock :=
  [⟨1, 1440 * 4 + 540, some (1440 * 4 + 1020), some 480,
    some ⟨ScheduleType.OVERTIME, false⟩⟩]

/-- A DRAFT pay period covering days 0–13, an otherwise empty store. -/
def exDB4 : DB :=
  ⟨[⟨0, 0, 20160, PayPeriodType.BI_WEEKLY, PayPeriodStatus.DRAFT⟩],
    [], [], [], [], [], 1, 0⟩

/-- A COMPLETED pay period owning one calculation with `grossPay = 1000`. -/
def exDB5 : DB :=
  ⟨[⟨0, 0, 20160, PayPeriodType.BI_WEEKLY, PayPeriodStatus.COMPLETED⟩],
    [], [], [], [⟨5, 0, 1, 0, 0, 0, 1000⟩], [], 1, 6⟩

/-- A −50 adjustment request against calculation 5. -/
def exAdj5 : PayAdjustmentDto := ⟨5, -50, "correction", "admin"⟩

/-- A PAID pay period with no calculations. -/
def exDB6 : DB :=
  ⟨[⟨0, 0, 20160, PayPeriodType.BI_WEEKLY, PayPeriodStatus.PAID⟩],
    [], [], [], [], [], 1, 0⟩

/-- An update DTO that only sets `status := PROCESSING`. -/
def exUpd6 : UpdatePayPeriodDto := ⟨none, none, none, some PayPeriodStatus.PROCESSING⟩

/-- A COMPLETED pay period with no calculations. -/
def exDB6b : DB :=
  ⟨[⟨0, 0, 20160, PayPeriodType.BI_WEEKLY, PayPeriodStatus.COMPLETED⟩],
    [], [], [], [], [], 1, 0⟩

/-- Fifteen completed clock records of user 1, one per day on the fifteen
days immediately before day 0. -/
def exC8clocks : List TimeClock :=
  (List.range 15).map (fun i =>
    ⟨1, -(1440 * ((i : Int) + 1)) + 600, some (-(1440 * ((i : Int) + 1)) + 1080),
      some 480, none⟩)

/-- User 1 hired exactly 30 days before day 0, with `exC8clocks` history. -/
def exDB8 : DB := ⟨[], [⟨1, -43200, none, some 10, true⟩], exC8clocks, [], [], [], 0, 0⟩

/-- A DRAFT pay period covering days 0–99. -/
def exDB9 : DB :=
  ⟨[⟨0, 0, 144000, PayPeriodType.MONTHLY, PayPeriodStatus.DRAFT⟩],
    [], [], [], [], [], 1, 0⟩

/-- A creation request whose range overlaps the stored period of `exDB9`. -/
def exCre9 : CreatePayPeriodDto := ⟨72000, 288000, PayPeriodType.MONTHLY, none⟩

/-- A creation request disjoint from the stored period of `exDB9`. -/
def exCre9b : CreatePayPeriodDto := ⟨150000, 200000, PayPeriodType.MONTHLY, none⟩

/-- Modelled from the claim wording of C7 before amendment: the total hours
of the completed clock records whose linked schedule has type OVERTIME
(with no statutory-holiday exclusion). -/
def overtimeTypedSum : List TimeClock → ℚ
  | [] => 0
  | tc :: rest =>
    (match tc.clockOutTime, tc.totalMinutes, tc.schedule with
     | some _, some m, some sch =>
       if sch.scheduleType = ScheduleType.OVERTIME then (m : ℚ) / 60 else 0
     | _, _, _ => 0) + overtimeTypedSum rest

/-! # Theorems -/

/-- Claim C10: `getWeekStart` returns a midnight instant whose day of week
is Sunday, lying on or before its input by at most six days; it is
idempotent, and every instant of the same Sunday-to-Saturday week maps to
the same week-start key. -/
theorem claim_C10_theorem (t : Int) :
    getWeekStart t % minutesPerDay = 0 ∧
    dayOfWeek (getWeekStart t) = 0 ∧
    getWeekStart t ≤ t ∧
    dayIndex t - dayIndex (getWeekStart t) ≤ 6 ∧
    getWeekStart (getWeekStart t) = getWeekStart t ∧
    ∀ t' : Int, getWeekStart t ≤ t' → t' < getWeekStart t + 7 * minutesPerDay →
      getWeekStart t' = getWeekStart t := by
  unfold getWeekStart dayOfWeek dayIndex minutesPerDay
  refine ⟨by omega, by omega, by omega, by omega, by omega, ?_⟩
  intro t' h1 h2
  omega

/-- Witness for C10: 12000 min and 10000 min lie in the same workweek and
share the week-start key. -/
theorem claim_C10_witness : getWeekStart 12000 = getWeekStart 10000 :=
  (claim_C10_theorem 10000).2.2.2.2.2 12000 (by decide) (by decide)

/-- Claim C1 counterexample: a single eligible 41-hour statutory-holiday
Monday with overtime enabled drives `regularHours` to −1: the holiday hours
enter the weekly total while the daily pass skips the day, so the weekly
adjustment subtracts regular hours that were never accrued. -/
theorem claim_C1_counterexample :
    (calculateEmployeePay exC1clocks 10 true [4] (fun _ => true)).regularHours
      = -1 ∧
    ¬ (0 ≤ (calculateEmployeePay exC1clocks 10 true [4]
        (fun _ => true)).regularHours) := by
  have h : (calculateEmployeePay exC1clocks 10 true [4]
      (fun _ => true)).regularHours = -1 := by
    norm_num [calculateEmployeePay, step1, processClock, bump, dailyOTStep,
      weeklyOTStep, dayIndex, dayOfWeek, getWeekStart, minutesPerDay,
      exC1clocks, max_def]
  exact ⟨h, by rw [h]; norm_num⟩

/-- Claim C2 counterexample: for the five-days-of-9-hours week the claim
predicts `overtimeHours = 7.5 + (5 − 5/1.5)·1.5 = 10`, but the code divides
the already-premium-adjusted 7.5 overtime hours by 1.5, obtaining
`max(0, 5 − 7.5/1.5) = 0` additional weekly overtime, so `overtimeHours`
stays 7.5. -/
theorem claim_C2_counterexample :
    (calculateEmployeePay exC2clocks 10 true [] (fun _ => true)).overtimeHours
      = 15 / 2 ∧
    ¬ ((calculateEmployeePay exC2clocks 10 true [] (fun _ => true)).overtimeHours
      = 15 / 2 + (5 - 5 / (3 / 2)) * (3 / 2)) := by
  have h : (calculateEmployeePay exC2clocks 10 true []
      (fun _ => true)).overtimeHours = 15 / 2 := by
    norm_num [calculateEmployeePay, step1, processClock, bump, dailyOTStep,
      weeklyOTStep, dayIndex, dayOfWeek, getWeekStart, minutesPerDay,
      exC2clocks, max_def]
  exact ⟨h, by rw [h]; norm_num⟩

/-- Claim C2 as amended: the daily pass over the five 9-hour days yields 40
regular hours and 7.5 overtime-equivalent hours; the weekly check then
computes `max(0, (45−40) − 7.5/1.5) = 0` and adds nothing. -/
theorem claim_C2_theorem :
    (calculateEmployeePay exC2clocks 10 true [] (fun _ => true)).regularHours
      = 40 ∧
    (calculateEmployeePay exC2clocks 10 true [] (fun _ => true)).overtimeHours
      = 15 / 2 ∧
    max 0 ((45 - 40 : ℚ) - (15 / 2) / (3 / 2)) = 0 := by
  refine ⟨?_, ?_, by norm_num [max_def]⟩ <;>
    norm_num [calculateEmployeePay, step1, processClock, bump, dailyOTStep,
      weeklyOTStep, dayIndex, dayOfWeek, getWeekStart, minutesPerDay,
      exC2clocks, max_def]

/-- Claim C3 counterexample: an eligible 8-hour day whose linked schedule is
flagged `isStatutoryHoliday` but which is absent from the statutory lookup
is *not* skipped by the Step-2 reconciliation: its hours are kept in
`holidayHours` *and* recomputed into `regularHours` (8 and 8), where the
claim requires the day to be skipped (regular contribution 0). -/
theorem claim_C3_counterexample :
    (calculateEmployeePay exC3clocks 10 true [] (fun _ => true)).holidayHours
      = 8 ∧
    (calculateEmployeePay exC3clocks 10 true [] (fun _ => true)).regularHours
      = 8 ∧
    (calculateEmployeePay exC3clocks 10 true [] (fun _ => true)).regularHours
      ≠ 0 := by
  have h1 : (calculateEmployeePay exC3clocks 10 true []
      (fun _ => true)).holidayHours = 8 := by
    norm_num [calculateEmployeePay, step1, processClock, bump, dailyOTStep,
      weeklyOTStep, dayIndex, dayOfWeek, getWeekStart, minutesPerDay,
      exC3clocks, max_def]
  have h2 : (calculateEmployeePay exC3clocks 10 true []
      (fun _ => true)).regularHours = 8 := by
    norm_num [calculateEmployeePay, step1, processClock, bump, dailyOTStep,
      weeklyOTStep, dayIndex, dayOfWeek, getWeekStart, minutesPerDay,
      exC3clocks, max_def]
  exact ⟨h1, h2, by rw [h2]; norm_num⟩

/-- Claim C7 counterexample: with overtime disabled, an OVERTIME-scheduled
record on a statutory-holiday day is classified as holiday pay, so
`overtimeHours` (0) is not the sum of hours of OVERTIME-scheduled records
(8). -/
theorem claim_C7_counterexample :
    (calculateEmployeePay exC7clocks 10 false [4] (fun _ => true)).overtimeHours
      = 0 ∧
    overtimeTypedSum exC7clocks = 8 ∧
    (calculateEmployeePay exC7clocks 10 false [4] (fun _ => true)).overtimeHours
      ≠ overtimeTypedSum exC7clocks := by
  have h1 : (calculateEmployeePay exC7clocks 10 false [4]
      (fun _ => true)).overtimeHours = 0 := by
    norm_num [calculateEmployeePay, step1, processClock, bump, dailyOTStep,
      weeklyOTStep, dayIndex, dayOfWeek, getWeekStart, minutesPerDay,
      exC7clocks, max_def]
  have h2 : overtimeTypedSum exC7clocks = 8 := by
    norm_num [overtimeTypedSum, exC7clocks]
  exact ⟨h1, h2, by rw [h1, h2]; norm_num⟩

/-- Invariant preservation along a left fold. -/
theorem foldl_inv {α β : Type _} (P : β → Prop) (f : β → α → β) :
    ∀ (l : List α) (b : β), P b → (∀ b' a, a ∈ l → P b' → P (f b' a)) →
      P (l.foldl f b) := by
  intro l
  induction l with
  | nil => exact fun b hb _ => hb
  | cons x xs ih =>
    intro b hb hstep
    exact ih (f b x) (hstep b x (List.mem_cons_self x xs) hb)
      (fun b' a ha hb' => hstep b' a (List.mem_cons_of_mem x ha) hb')

/-- `bump` keeps all map values non-negative. -/
theorem bump_nonneg : ∀ (l : List (Int × ℚ)) (k : Int) (v : ℚ),
    (∀ e ∈ l, 0 ≤ e.2) → 0 ≤ v → ∀ e ∈ bump k v l, 0 ≤ e.2 := by
  intro l
  induction l with
  | nil =>
    intro k v _ hv e he
    simp [bump] at he
    simp [he, hv]
  | cons x xs ih =>
    intro k v hl hv e he
    obtain ⟨k', v'⟩ := x
    rw [bump] at he
    split at he
    · rcases List.mem_cons.mp he with h | h
      · subst h
        exact add_nonneg (hl ⟨k', v'⟩ (List.mem_cons_self _ _)) hv
      · exact hl e (List.mem_cons_of_mem _ h)
    · rcases List.mem_cons.mp he with h | h
      · subst h
        exact hl ⟨k', v'⟩ (List.mem_cons_self _ _)
      · exact ih k v (fun e' he' => hl e' (List.mem_cons_of_mem _ he')) hv e h

/-- One Step-1 iteration keeps every accumulated quantity non-negative. -/
theorem processClock_nonneg (hd : List Int) (el : Int → Bool)
    (s : Step1State) (tc : TimeClock)
    (h : 0 ≤ s.regular ∧ 0 ≤ s.overtime ∧ 0 ≤ s.holiday ∧
      (∀ e ∈ s.daily, 0 ≤ e.2) ∧ (∀ e ∈ s.weekly, 0 ≤ e.2)) :
    0 ≤ (processClock hd el s tc).regular ∧
    0 ≤ (processClock hd el s tc).overtime ∧
    0 ≤ (processClock hd el s tc).holiday ∧
    (∀ e ∈ (processClock hd el s tc).daily, 0 ≤ e.2) ∧
    (∀ e ∈ (processClock hd el s tc).weekly, 0 ≤ e.2) := by
  obtain ⟨h1, h2, h3, h4, h5⟩ := h
  unfold processClock
  split
  · rename_i m heq1 heq2
    split
    · exact ⟨h1, h2, h3, h4, h5⟩
    · dsimp only
      have hv : (0 : ℚ) ≤ (m : ℚ) / 60 := by positivity
      have hd4 := bump_nonneg s.daily (dayIndex tc.clockInTime) ((m : ℚ) / 60) h4 hv
      have hw5 := bump_nonneg s.weekly (dayIndex (getWeekStart tc.clockInTime))
        ((m : ℚ) / 60) h5 hv
      split
      · split
        · exact ⟨h1, h2, add_nonneg h3 hv, hd4, hw5⟩
        · exact ⟨add_nonneg h1 hv, h2, h3, hd4, hw5⟩
      · split
        · split
          · exact ⟨h1, add_nonneg h2 hv, h3, hd4, hw5⟩
          · exact ⟨add_nonneg h1 hv, h2, h3, hd4, hw5⟩
        · exact ⟨add_nonneg h1 hv, h2, h3, hd4, hw5⟩
  · exact ⟨h1, h2, h3, h4, h5⟩

/-- Step 1 produces only non-negative buckets and map values. -/
theorem step1_nonneg (hd : List Int) (el : Int → Bool) (tcs : List TimeClock) :
    0 ≤ (step1 hd el tcs).regular ∧
    0 ≤ (step1 hd el tcs).overtime ∧
    0 ≤ (step1 hd el tcs).holiday ∧
    (∀ e ∈ (step1 hd el tcs).daily, 0 ≤ e.2) ∧
    (∀ e ∈ (step1 hd el tcs).weekly, 0 ≤ e.2) := by
  unfold step1
  refine foldl_inv (fun (s : Step1State) => 0 ≤ s.regular ∧ 0 ≤ s.overtime ∧
    0 ≤ s.holiday ∧ (∀ e ∈ s.daily, 0 ≤ e.2) ∧ (∀ e ∈ s.weekly, 0 ≤ e.2))
    _ tcs _ ?_ ?_
  · refine ⟨le_refl 0, le_refl 0, le_refl 0, ?_, ?_⟩ <;> intro e he <;> simp at he
  · intro b a _ hb
    exact processClock_nonneg hd el b a hb

/-- The daily reconciliation pass keeps both accumulators non-negative. -/
theorem dailyOT_nonneg (hd : List Int) (l : List (Int × ℚ)) (acc : ℚ × ℚ)
    (hl : ∀ e ∈ l, 0 ≤ e.2) (h : 0 ≤ acc.1 ∧ 0 ≤ acc.2) :
    0 ≤ (l.foldl (dailyOTStep hd) acc).1 ∧
    0 ≤ (l.foldl (dailyOTStep hd) acc).2 := by
  refine foldl_inv (fun (a : ℚ × ℚ) => 0 ≤ a.1 ∧ 0 ≤ a.2) _ l acc h ?_
  intro b e he hb
  have hv := hl e he
  unfold dailyOTStep
  split
  · exact hb
  · dsimp only
    split
    · exact ⟨add_nonneg hb.1 hv, hb.2⟩
    · split
      · rename_i h8 _
        push_neg at h8
        exact ⟨by linarith [hb.1], by linarith [hb.2]⟩
      · rename_i h8 h12
        push_neg at h8 h12
        exact ⟨by linarith [hb.1], by linarith [hb.2]⟩

/-- The weekly reconciliation pass never decreases the overtime
accumulator; in particular it keeps it non-negative. -/
theorem weeklyOT_snd_nonneg (l : List (Int × ℚ)) (acc : ℚ × ℚ)
    (h : 0 ≤ acc.2) : 0 ≤ (l.foldl weeklyOTStep acc).2 := by
  refine foldl_inv (fun (a : ℚ × ℚ) => 0 ≤ a.2) _ l acc h ?_
  intro b e _ hb
  unfold weeklyOTStep
  dsimp only
  split
  · split
    · have hm : (0 : ℚ) ≤ max 0 ((e.2 - 40) - b.2 / (3 / 2)) := le_max_left _ _
      have : (0 : ℚ) ≤ max 0 ((e.2 - 40) - b.2 / (3 / 2)) * (3 / 2) := by positivity
      dsimp only
      linarith [hb]
    · exact hb
  · exact hb

/-- Claim C1 (amended): `overtimeHours` and `holidayHours` are always
non-negative, and `regularHours` is non-negative whenever overtime
reconciliation is disabled.  (With `overtimeEnabled = true` the weekly
adjustment can drive `regularHours` negative, see the counterexample.) -/
theorem claim_C1_theorem (tcs : List TimeClock) (rate : ℚ) (oe : Bool)
    (hd : List Int) (el : Int → Bool) :
    0 ≤ (calculateEmployeePay tcs rate oe hd el).overtimeHours ∧
    0 ≤ (calculateEmployeePay tcs rate oe hd el).holidayHours ∧
    (oe = false → 0 ≤ (calculateEmployeePay tcs rate oe hd el).regularHours) := by
  have hs := step1_nonneg hd el tcs
  cases oe with
  | false =>
    simp only [calculateEmployeePay]
    exact ⟨hs.2.1, hs.2.2.1, fun _ => hs.1⟩
  | true =>
    simp only [calculateEmployeePay]
    have hdn := dailyOT_nonneg hd (step1 hd el tcs).daily (0, 0) hs.2.2.2.1
      ⟨le_refl 0, le_refl 0⟩
    have hwn := weeklyOT_snd_nonneg (step1 hd el tcs).weekly _ hdn.2
    exact ⟨hwn, hs.2.2.1, fun hcontra => by simp at hcontra⟩

/-- Witness for C1: the non-negativity bounds at a concrete
overtime-disabled input. -/
theorem claim_C1_witness :
    0 ≤ (calculateEmployeePay exC2clocks 10 false [] (fun _ => true)).overtimeHours ∧
    0 ≤ (calculateEmployeePay exC2clocks 10 false [] (fun _ => true)).regularHours :=
  ⟨(claim_C1_theorem exC2clocks 10 false [] (fun _ => true)).1,
    (claim_C1_theorem exC2clocks 10 false [] (fun _ => true)).2.2 rfl⟩

/-- The overtime bucket delta of one Step-1 iteration: the record's hours
when it is a completed, non-holiday, OVERTIME-scheduled record. -/
theorem processClock_overtime (hd : List Int) (el : Int → Bool)
    (s : Step1State) (tc : TimeClock) :
    (processClock hd el s tc).overtime = s.overtime +
      (match tc.clockOutTime, tc.totalMinutes, tc.schedule with
       | some _, some m, some sch =>
         if sch.scheduleType = ScheduleType.OVERTIME ∧
             ¬(hd.contains (dayIndex tc.clockInTime) = true ∨
               sch.isStatutoryHoliday = true)
         then (m : ℚ) / 60 else 0
       | _, _, _ => 0) := by
  obtain ⟨uid, ci, co, tm, sch⟩ := tc
  unfold processClock
  cases co with
  | none => cases tm <;> cases sch <;> simp
  | some cov =>
    cases tm with
    | none => cases sch <;> simp
    | some m =>
      by_cases hm : m = 0
      · subst hm
        cases sch with
        | none => simp
        | some sc => simp [ite_self]
      · simp only [hm, if_false]
        dsimp only
        cases sch with
        | none =>
          simp only []
          split
          · split <;> simp
          · simp
        | some sc =>
          by_cases hcont : hd.contains (dayIndex ci) = true
          · simp only [hcont, Bool.true_or, if_true]
            split <;> simp [hcont]
          · by_cases hflag : sc.isStatutoryHoliday = true
            · simp only [hcont, hflag, Bool.false_or, if_true]
              split <;> simp [hcont, hflag]
            · simp only [hcont, hflag, Bool.false_or, if_false]
              by_cases hty : sc.scheduleType = ScheduleType.OVERTIME
              · simp [hty, hcont, hflag]
              · simp [hty, hcont, hflag]

/-- Step 1 accumulates exactly the non-holiday OVERTIME-scheduled hours
into the overtime bucket. -/
theorem step1_overtime_eq (hd : List Int) (el : Int → Bool) :
    ∀ (tcs : List TimeClock) (s : Step1State),
      (tcs.foldl (processClock hd el) s).overtime
        = s.overtime + overtimeScheduleSum hd tcs := by
  intro tcs
  induction tcs with
  | nil => intro s; simp [overtimeScheduleSum]
  | cons tc rest ih =>
    intro s
    rw [List.foldl_cons, ih, overtimeScheduleSum, processClock_overtime]
    ring

/-- Claim C7 (amended): with `overtimeEnabled = false`, `overtimeHours`
equals the sum of hours of the completed records linked to an OVERTIME-type
schedule *whose day is not treated as a statutory holiday* (the holiday
classification takes precedence over the OVERTIME schedule type), and no
daily/weekly reconciliation is applied. -/
theorem claim_C7_theorem (tcs : List TimeClock) (rate : ℚ)
    (hd : List Int) (el : Int → Bool) :
    (calculateEmployeePay tcs rate false hd el).overtimeHours
      = overtimeScheduleSum hd tcs := by
  have h := step1_overtime_eq hd el tcs ⟨[], [], 0, 0, 0⟩
  simp only [calculateEmployeePay, step1, Bool.false_eq_true, if_false]
  simpa using h

/-- The day-totals map of one Step-1 iteration depends only on the record's
completion fields, clock-in instant and minutes. -/
theorem processClock_daily (hd : List Int) (el : Int → Bool)
    (s : Step1State) (tc : TimeClock) :
    (processClock hd el s tc).daily =
      (match tc.clockOutTime, tc.totalMinutes with
       | some _, some m =>
         if m = 0 then s.daily
         else bump (dayIndex tc.clockInTime) ((m : ℚ) / 60) s.daily
       | _, _ => s.daily) := by
  obtain ⟨uid, ci, co, tm, sch⟩ := tc
  unfold processClock
  cases co with
  | none => cases tm <;> simp
  | some cov =>
    cases tm with
    | none => simp
    | some m =>
      by_cases hm : m = 0
      · simp [hm]
      · simp only [hm, if_false]
        split
        · split <;> rfl
        · cases sch with
          | none => rfl
          | some sc => split <;> first | rfl | (split <;> rfl)

/-- The week-totals map of one Step-1 iteration depends only on the
record's completion fields, clock-in instant and minutes. -/
theorem processClock_weekly (hd : List Int) (el : Int → Bool)
    (s : Step1State) (tc : TimeClock) :
    (processClock hd el s tc).weekly =
      (match tc.clockOutTime, tc.totalMinutes with
       | some _, some m =>
         if m = 0 then s.weekly
         else bump (dayIndex (getWeekStart tc.clockInTime)) ((m : ℚ) / 60)
           s.weekly
       | _, _ => s.weekly) := by
  obtain ⟨uid, ci, co, tm, sch⟩ := tc
  unfold processClock
  cases co with
  | none => cases tm <;> simp
  | some cov =>
    cases tm with
    | none => simp
    | some m =>
      by_cases hm : m = 0
      · simp [hm]
      · simp only [hm, if_false]
        split
        · split <;> rfl
        · cases sch with
          | none => rfl
          | some sc => split <;> first | rfl | (split <;> rfl)

/-- The Step-1 day/week totals are insensitive to the schedules'
`isStatutoryHoliday` flags and to the eligibility predicate. -/
theorem step1_maps_flag_free (hd : List Int) (el el' : Int → Bool) :
    ∀ (tcs : List TimeClock) (s s' : Step1State),
      s.daily = s'.daily → s.weekly = s'.weekly →
      ((tcs.map clearHolidayFlag).foldl (processClock hd el') s).daily
          = (tcs.foldl (processClock hd el) s').daily ∧
        ((tcs.map clearHolidayFlag).foldl (processClock hd el') s).weekly
          = (tcs.foldl (processClock hd el) s').weekly := by
  intro tcs
  induction tcs with
  | nil => intro s s' h1 h2; simpa using ⟨h1, h2⟩
  | cons tc rest ih =>
    intro s s' h1 h2
    simp only [List.map_cons, List.foldl_cons]
    refine ih _ _ ?_ ?_
    · rw [processClock_daily, processClock_daily]
      simp only [clearHolidayFlag]
      rw [h1]
    · rw [processClock_weekly, processClock_weekly]
      simp only [clearHolidayFlag]
      rw [h2]

/-- Claim C3 (amended): with `overtimeEnabled = true` the Step-2
reconciliation recomputes `regularHours`/`overtimeHours` from the per-day
totals using only the statutory-holiday *lookup* as the skip condition — it
is entirely insensitive to the schedules' `isStatutoryHoliday` flags and to
the eligibility predicate — while `holidayHours` is kept exactly as Step 1
accumulated it. -/
theorem claim_C3_theorem (tcs : List TimeClock) (rate : ℚ) (hd : List Int)
    (el el' : Int → Bool) :
    (calculateEmployeePay (tcs.map clearHolidayFlag) rate true hd el').regularHours
        = (calculateEmployeePay tcs rate true hd el).regularHours ∧
      (calculateEmployeePay (tcs.map clearHolidayFlag) rate true hd el').overtimeHours
        = (calculateEmployeePay tcs rate true hd el).overtimeHours ∧
      (calculateEmployeePay tcs rate true hd el).holidayHours
        = (calculateEmployeePay tcs rate false hd el).holidayHours := by
  have h := step1_maps_flag_free hd el el' tcs ⟨[], [], 0, 0, 0⟩ ⟨[], [], 0, 0, 0⟩
    rfl rfl
  simp only [calculateEmployeePay, step1, if_true]
  rw [h.1, h.2]
  simp

/-- `find?` by id after an id-preserving in-place update of one element. -/
theorem find_update_by_id {α : Type _} (idOf : α → Nat) (upd : α → α)
    (hupd : ∀ a, idOf (upd a) = idOf a) (k : Nat) :
    ∀ l : List α, (l.map (fun a => if idOf a = k then upd a else a)).find?
        (fun a => idOf a == k)
      = (l.find? (fun a => idOf a == k)).map
          (fun a => if idOf a = k then upd a else a) := by
  intro l
  induction l with
  | nil => rfl
  | cons x xs ih =>
    by_cases h : idOf x = k
    · rw [List.map_cons, List.find?_cons_of_pos, List.find?_cons_of_pos]
      · simp [h]
      · simp [h]
      · simp [h, hupd]
    · rw [List.map_cons, List.find?_cons_of_neg, List.find?_cons_of_neg, ih]
      · simp [h]
      · simp [h, hupd]

/-- Looking a period up after a status write returns the updated row. -/
theorem findPeriod_setPeriodStatus (db : DB) (pid : Nat) (st : PayPeriodStatus) :
    findPeriod (setPeriodStatus db pid st) pid
      = (findPeriod db pid).map
          (fun p => if p.id = pid then { p with status := st } else p) := by
  unfold findPeriod setPeriodStatus
  exact find_update_by_id PayPeriod.id (fun p => { p with status := st })
    (fun _ => rfl) pid db.payPeriods

/-- A status write is visible on a stored period. -/
theorem periodStatus_setPeriodStatus (db : DB) (pid : Nat)
    (st : PayPeriodStatus) (p : PayPeriod) (hp : findPeriod db pid = some p) :
    periodStatus (setPeriodStatus db pid st) pid = some st := by
  have hid : p.id = pid := by
    have := List.find?_some hp
    simpa using this
  unfold periodStatus
  rw [findPeriod_setPeriodStatus, hp]
  simp [hid]

/-- Claim C6 counterexample: `update` accepts a bare `status` field with no
state-machine guard, so the user-invoked `update` moves a PAID period to
PROCESSING — a transition outside the claimed edge set and outside
`markAsPaid`. -/
theorem claim_C6_counterexample :
    (updatePayPeriod exDB6 0 exUpd6).2 = Except.ok () ∧
    periodStatus exDB6 0 = some PayPeriodStatus.PAID ∧
    periodStatus (updatePayPeriod exDB6 0 exUpd6).1 0
      = some PayPeriodStatus.PROCESSING := by
  refine ⟨?_, ?_, ?_⟩ <;> rfl

/-- Claim C6 (amended): `markAsPaid` itself is correctly gated — `NotFound`
for a missing period, `ValidationError` unless the status is exactly
COMPLETED (in particular from DRAFT and PROCESSING), and from COMPLETED it
succeeds and sets PAID.  (Status can still change along other paths:
`update` writes any provided status, and `calculatePayroll` forces
PROCESSING regardless of the current status — see the counterexample.) -/
theorem claim_C6_theorem (db : DB) (id : Nat) :
    (findPeriod db id = none →
      markAsPaid db id = (db, Except.error PError.notFound)) ∧
    (∀ p, findPeriod db id = some p → p.status ≠ PayPeriodStatus.COMPLETED →
      markAsPaid db id = (db, Except.error PError.validation)) ∧
    (∀ p, findPeriod db id = some p → p.status = PayPeriodStatus.COMPLETED →
      (markAsPaid db id).2 = Except.ok () ∧
      periodStatus (markAsPaid db id).1 id = some PayPeriodStatus.PAID) := by
  refine ⟨?_, ?_, ?_⟩
  · intro h
    unfold markAsPaid
    rw [h]
  · intro p hp hst
    unfold markAsPaid
    rw [hp]
    simp [hst]
  · intro p hp hst
    unfold markAsPaid
    rw [hp]
    simp only [hst, ne_eq, not_true_eq_false, if_false, ite_false]
    refine ⟨by trivial, ?_⟩
    exact periodStatus_setPeriodStatus db id PayPeriodStatus.PAID p hp

/-- Witness for C6: `markAsPaid` rejects a PAID period and succeeds on a
COMPLETED one. -/
theorem claim_C6_witness :
    markAsPaid exDB6 0 = (exDB6, Except.error PError.validation) ∧
    (markAsPaid exDB6b 0).2 = Except.ok () ∧
    periodStatus (markAsPaid exDB6b 0).1 0 = some PayPeriodStatus.PAID :=
  ⟨(claim_C6_theorem exDB6 0).2.1
      ⟨0, 0, 20160, PayPeriodType.BI_WEEKLY, PayPeriodStatus.PAID⟩ rfl (by decide),
    ((claim_C6_theorem exDB6b 0).2.2
      ⟨0, 0, 20160, PayPeriodType.BI_WEEKLY, PayPeriodStatus.COMPLETED⟩ rfl rfl).1,
    ((claim_C6_theorem exDB6b 0).2.2
      ⟨0, 0, 20160, PayPeriodType.BI_WEEKLY, PayPeriodStatus.COMPLETED⟩ rfl rfl).2⟩

/-- Looking a calculation up after the gross-pay increment returns the
updated row. -/
theorem findCalc_increment (db : DB) (cid : Nat) (amt : ℚ) :
    (db.payCalculations.map (fun c =>
        if c.id = cid then { c with grossPay := c.grossPay + amt } else c)).find?
        (fun c => c.id == cid)
      = (db.payCalculations.find? (fun c => c.id == cid)).map
          (fun c => if c.id = cid then { c with grossPay := c.grossPay + amt }
            else c) :=
  find_update_by_id PayCalculation.id
    (fun c => { c with grossPay := c.grossPay + amt }) (fun _ => rfl) cid
    db.payCalculations

/-- Claim C5 (amended): `addAdjustment` fails `NotFound` when the
calculation is absent and `ValidationError` when the owning period is PAID
(both without visible effects); otherwise it performs two *sequential*
writes: when both succeed, the adjustment row is appended and `grossPay`
is incremented by the signed amount, but when the increment write fails
the already-created adjustment row remains visible with `grossPay`
unchanged — the two effects are not atomic. -/
theorem claim_C5_theorem (db : DB) (dto : PayAdjustmentDto) (incFails : Bool) :
    (findCalc db dto.payCalculationId = none →
      addAdjustment db dto incFails = (db, Except.error PError.notFound)) ∧
    (∀ c p, findCalc db dto.payCalculationId = some c →
      findPeriod db c.payPeriodId = some p →
      p.status = PayPeriodStatus.PAID →
      addAdjustment db dto incFails = (db, Except.error PError.validation)) ∧
    (∀ c p, findCalc db dto.payCalculationId = some c →
      findPeriod db c.payPeriodId = some p →
      p.status ≠ PayPeriodStatus.PAID → incFails = false →
      (addAdjustment db dto incFails).2 = Except.ok () ∧
      (addAdjustment db dto incFails).1.payAdjustments = db.payAdjustments ++
        [⟨dto.payCalculationId, dto.amount, dto.reason, dto.createdBy⟩] ∧
      (findCalc (addAdjustment db dto incFails).1 dto.payCalculationId).map
          (·.grossPay) = some (c.grossPay + dto.amount)) ∧
    (∀ c p, findCalc db dto.payCalculationId = some c →
      findPeriod db c.payPeriodId = some p →
      p.status ≠ PayPeriodStatus.PAID → incFails = true →
      (addAdjustment db dto incFails).2 = Except.error PError.generic ∧
      (addAdjustment db dto incFails).1.payAdjustments = db.payAdjustments ++
        [⟨dto.payCalculationId, dto.amount, dto.reason, dto.createdBy⟩] ∧
      (addAdjustment db dto incFails).1.payCalculations
        = db.payCalculations) := by
  refine ⟨?_, ?_, ?_, ?_⟩
  · intro h
    unfold addAdjustment
    rw [h]
  · intro c p hc hp hst
    simp only [addAdjustment, hc, hp]
    simp [hst]
  · intro c p hc hp hst hf
    subst hf
    have hid : c.id = dto.payCalculationId := by
      have := List.find?_some hc
      simpa using this
    simp only [addAdjustment, hc, hp]
    simp only [hst, ite_false, Bool.false_eq_true, if_false]
    refine ⟨by trivial, by trivial, ?_⟩
    unfold findCalc
    have hrw := findCalc_increment
      { db with payAdjustments := db.payAdjustments ++
          [⟨dto.payCalculationId, dto.amount, dto.reason, dto.createdBy⟩] }
      dto.payCalculationId dto.amount
    simp only [] at hrw ⊢
    rw [hrw]
    have hc' : ({ db with payAdjustments := db.payAdjustments ++
        [⟨dto.payCalculationId, dto.amount, dto.reason, dto.createdBy⟩] }
        : DB).payCalculations.find? (fun c => c.id == dto.payCalculationId)
        = some c := hc
    rw [hc']
    simp [hid]
  · intro c p hc hp hst hf
    subst hf
    simp only [addAdjustment, hc, hp]
    simp [hst]

/-- Claim C5 counterexample: when the gross-pay increment write fails, the
adjustment row is visible (length 1) while `grossPay` is still 1000 — one
effect without the other, contradicting the claimed all-or-nothing
behaviour. -/
theorem claim_C5_counterexample :
    (addAdjustment exDB5 exAdj5 true).2 = Except.error PError.generic ∧
    (addAdjustment exDB5 exAdj5 true).1.payAdjustments.length = 1 ∧
    (findCalc (addAdjustment exDB5 exAdj5 true).1 5).map (·.grossPay)
      = some 1000 := by
  refine ⟨rfl, rfl, rfl⟩

/-- Witness for C5: the −50 adjustment on a non-PAID period's calculation
with `grossPay = 1000` succeeds and yields 950. -/
theorem claim_C5_witness :
    (addAdjustment exDB5 exAdj5 false).2 = Except.ok () ∧
    (findCalc (addAdjustment exDB5 exAdj5 false).1 5).map (·.grossPay)
      = some 950 := by
  have h := (claim_C5_theorem exDB5 exAdj5 false).2.2.1
    ⟨5, 0, 1, 0, 0, 0, 1000⟩
    ⟨0, 0, 20160, PayPeriodType.BI_WEEKLY, PayPeriodStatus.COMPLETED⟩
    rfl rfl (by decide) rfl
  have h3 := h.2.2
  norm_num [exAdj5] at h3 ⊢
  exact ⟨h.1, h3⟩

/-- Deduplicating timestamps before projecting to days does not change the
number of distinct days. -/
theorem dedup_map_dedup_length (l : List Int) (f : Int → Int) :
    ((l.dedup.map f).dedup).length = ((l.map f).dedup).length := by
  rw [← List.card_toFinset, ← List.card_toFinset]
  congr 1
  ext a
  simp [List.mem_map, List.mem_dedup]

/-- Claim C8: `isEligibleForHolidayPay` returns true exactly when the
employee exists, was hired at least 30 calendar days before the holiday,
and has at least 15 distinct worked calendar days with a completed
clock-in inside the half-open window `[holidayDate − 30d, holidayDate)`
(multiple clock-ins on one day deduplicated); a missing employee yields
`false` rather than an error, and being hired exactly 29 days before the
holiday yields `false`. -/
theorem claim_C8_theorem (db : DB) (userId : Nat) (holidayDate : Int) :
    (isEligibleForHolidayPay db userId holidayDate = true ↔
      ∃ u, findUser db userId = some u ∧
        u.hireDate ≤ holidayDate - 30 * minutesPerDay ∧
        15 ≤ (distinctWorkedDays db userId holidayDate).length) ∧
    (findUser db userId = none →
      isEligibleForHolidayPay db userId holidayDate = false) ∧
    (∀ u, findUser db userId = some u →
      u.hireDate = holidayDate - 29 * minutesPerDay →
      isEligibleForHolidayPay db userId holidayDate = false) := by
  have hlen : (((db.timeClocks.filter (fun tc =>
      tc.userId == userId &&
        decide (holidayDate - 30 * minutesPerDay ≤ tc.clockInTime) &&
        decide (tc.clockInTime < holidayDate) &&
        tc.clockOutTime.isSome)).map (·.clockInTime)).dedup.map
      dayIndex).dedup.length
      = (distinctWorkedDays db userId holidayDate).length := by
    unfold distinctWorkedDays
    rw [dedup_map_dedup_length, List.map_map]
    rfl
  refine ⟨?_, ?_, ?_⟩
  · unfold isEligibleForHolidayPay
    cases h : findUser db userId with
    | none => simp [h]
    | some u =>
      simp only [h]
      split
      · rename_i hlt
        simp only [Bool.false_eq_true, false_iff]
        rintro ⟨u', hu', hhire, _⟩
        cases hu'
        omega
      · rename_i hge
        push_neg at hge
        simp only [decide_eq_true_eq]
        rw [hlen]
        constructor
        · intro hcount
          exact ⟨u, rfl, hge, hcount⟩
        · rintro ⟨u', hu', _, hcount⟩
          cases hu'
          exact hcount
  · intro h
    unfold isEligibleForHolidayPay
    rw [h]
  · intro u hu heq
    unfold isEligibleForHolidayPay
    rw [hu]
    have : holidayDate - 30 * minutesPerDay < u.hireDate := by
      rw [heq]
      unfold minutesPerDay
      omega
    simp [this]

/-- Witness for C8: a user hired exactly 30 days before the holiday with 15
distinct worked days is eligible. -/
theorem claim_C8_witness : isEligibleForHolidayPay exDB8 1 0 = true := by
  refine (claim_C8_theorem exDB8 1 0).1.mpr
    ⟨⟨1, -43200, none, some 10, true⟩, rfl, by norm_num [minutesPerDay], ?_⟩
  decide

/-- The orchestrator loop: it never touches the period or time-clock
tables, only appends to the calculation table, and on success returns the
count of employees passing the skip conditions, which is exactly the
number of calculations created. -/
theorem payrollLoop_spec (period : PayPeriod) (f : Nat → Bool) :
    ∀ (emps : List User) (db : DB) (count : Nat),
      (payrollLoop period f emps db count).1.payPeriods = db.payPeriods ∧
      (payrollLoop period f emps db count).1.timeClocks = db.timeClocks ∧
      db.payCalculations <+:
        (payrollLoop period f emps db count).1.payCalculations ∧
      ∀ n, (payrollLoop period f emps db count).2 = Except.ok n →
        n = count +
          (emps.filter (employeeProcessed db.timeClocks period)).length ∧
        (payrollLoop period f emps db count).1.payCalculations.length
          = db.payCalculations.length +
            (emps.filter (employeeProcessed db.timeClocks period)).length := by
  intro emps
  induction emps with
  | nil =>
    intro db count
    refine ⟨rfl, rfl, List.prefix_refl _, ?_⟩
    intro n hn
    simp only [payrollLoop] at hn ⊢
    cases hn
    simp
  | cons u rest ih =>
    intro db count
    rw [payrollLoop]
    cases hpr : u.payRate with
    | none =>
      have hproc : employeeProcessed db.timeClocks period u = false := by
        simp [employeeProcessed, hpr]
      simp only [hproc, List.filter_cons, Bool.false_eq_true, if_false]
      exact ih db count
    | some rate =>
      by_cases hrate : rate = 0
      · subst hrate
        have hproc : employeeProcessed db.timeClocks period u = false := by
          simp [employeeProcessed, hpr]
        simp only [hproc, List.filter_cons, Bool.false_eq_true, if_false,
          if_pos rfl]
        exact ih db count
      · simp only [if_neg hrate]
        by_cases hlen : (clocksForEmployee db.timeClocks u.id period.startDate
            period.endDate).length = 0
        · have hproc : employeeProcessed db.timeClocks period u = false := by
            simp [employeeProcessed, hpr, hrate, hlen]
          simp only [hlen, if_pos rfl, hproc, List.filter_cons,
            Bool.false_eq_true, if_false]
          exact ih db count
        · have hproc : employeeProcessed db.timeClocks period u = true := by
            simp [employeeProcessed, hpr, hrate, hlen]
          simp only [if_neg hlen]
          by_cases hf : f u.id = true
          · simp only [hf, if_pos rfl]
            refine ⟨rfl, rfl, List.prefix_refl _, ?_⟩
            intro n hn
            cases hn
          · simp only [if_neg hf]
            set db' : DB :=
              { db with
                payCalculations := db.payCalculations ++
                  [⟨db.nextCalcId, period.id, u.id,
                    (calculateEmployeePay (clocksForEmployee db.timeClocks u.id
                        period.startDate period.endDate) rate u.overtimeEnabled
                        (fetchHolidayDates db period.startDate period.endDate)
                        (fun d => isEligibleForHolidayPay db u.id
                          (d * minutesPerDay))).regularHours,
                    (calculateEmployeePay (clocksForEmployee db.timeClocks u.id
                        period.startDate period.endDate) rate u.overtimeEnabled
                        (fetchHolidayDates db period.startDate period.endDate)
                        (fun d => isEligibleForHolidayPay db u.id
                          (d * minutesPerDay))).overtimeHours,
                    (calculateEmployeePay (clocksForEmployee db.timeClocks u.id
                        period.startDate period.endDate) rate u.overtimeEnabled
                        (fetchHolidayDates db period.startDate period.endDate)
                        (fun d => isEligibleForHolidayPay db u.id
                          (d * minutesPerDay))).holidayHours,
                    (calculateEmployeePay (clocksForEmployee db.timeClocks u.id
                        period.startDate period.endDate) rate u.overtimeEnabled
                        (fetchHolidayDates db period.startDate period.endDate)
                        (fun d => isEligibleForHolidayPay db u.id
                          (d * minutesPerDay))).grossPay⟩]
                nextCalcId := db.nextCalcId + 1 } with hdb'
            have hih := ih db' (count + 1)
            have htc : db'.timeClocks = db.timeClocks := rfl
            have hpc : db'.payCalculations
                = db.payCalculations ++ [_] := rfl
            refine ⟨hih.1, by rw [hih.2.1], ?_, ?_⟩
            · exact List.IsPrefix.trans (List.prefix_append _ _) hih.2.2.1
            · intro n hn
              have h4 := hih.2.2.2 n hn
              rw [htc] at h4
              have hfl : ((u :: rest).filter
                  (employeeProcessed db.timeClocks period)).length
                  = (rest.filter
                      (employeeProcessed db.timeClocks period)).length + 1 := by
                simp [List.filter_cons, hproc]
              have hlen' : db'.payCalculations.length
                  = db.payCalculations.length + 1 := by
                simp [hdb']
              refine ⟨?_, ?_⟩
              · have h41 := h4.1
                rw [hfl]
                omega
              · have h42 := h4.2
                rw [hfl, h42, hlen']
                omega

/-- Claim C4: `calculatePayroll` fails `NotFound` (with no state change)
when the period is absent; otherwise, on a run with no storage failure it
ends with status COMPLETED and returns the count of non-skipped employees
(those with a truthy pay rate and at least one completed clock in the
period), each of which got exactly one new PayCalculation row; on a
storage failure during the loop it ends with status DRAFT, propagates the
error, and the rows already created remain (the original calculation list
stays a prefix of the final one). -/
theorem claim_C4_theorem (db : DB) (pid : Nat) (f : Nat → Bool) :
    (findPeriod db pid = none →
      calculatePayroll db pid f = (db, Except.error PError.notFound)) ∧
    ∀ p, findPeriod db pid = some p →
      (∀ n, (calculatePayroll db pid f).2 = Except.ok n →
        periodStatus (calculatePayroll db pid f).1 pid
          = some PayPeriodStatus.COMPLETED ∧
        n = ((db.users.filter (activeEmployeeFilter p.endDate)).filter
            (employeeProcessed db.timeClocks p)).length ∧
        (calculatePayroll db pid f).1.payCalculations.length
          = db.payCalculations.length + n) ∧
      (∀ e, (calculatePayroll db pid f).2 = Except.error e →
        periodStatus (calculatePayroll db pid f).1 pid
          = some PayPeriodStatus.DRAFT ∧
        db.payCalculations <+:
          (calculatePayroll db pid f).1.payCalculations) := by
  constructor
  · intro h
    unfold calculatePayroll
    rw [h]
  · intro p hp
    have hid : p.id = pid := by simpa using List.find?_some hp
    have h1pp : findPeriod (setPeriodStatus db pid PayPeriodStatus.PROCESSING)
        pid = some { p with status := PayPeriodStatus.PROCESSING } := by
      rw [findPeriod_setPeriodStatus, hp]
      simp [hid]
    have hloop := payrollLoop_spec p f
      (db.users.filter (activeEmployeeFilter p.endDate))
      (setPeriodStatus db pid PayPeriodStatus.PROCESSING) 0
    rcases hres : payrollLoop p f
      (db.users.filter (activeEmployeeFilter p.endDate))
      (setPeriodStatus db pid PayPeriodStatus.PROCESSING) 0 with ⟨db2, res⟩
    rw [hres] at hloop
    have hcalc : calculatePayroll db pid f =
        (match (db2, res) with
         | (db2, Except.ok count) =>
           (setPeriodStatus db2 pid PayPeriodStatus.COMPLETED, Except.ok count)
         | (db2, Except.error e) =>
           (setPeriodStatus db2 pid PayPeriodStatus.DRAFT, Except.error e)) := by
      simp only [calculatePayroll, hp]
      rw [← hres]
    have h2pp : findPeriod db2 pid
        = some { p with status := PayPeriodStatus.PROCESSING } := by
      unfold findPeriod
      have := hloop.1
      simp only [] at this
      rw [this]
      exact h1pp
    cases res with
    | ok n0 =>
      constructor
      · intro n hn
        rw [hcalc] at hn
        simp only [] at hn
        cases hn
        have h4 := hloop.2.2.2 n0 rfl
        simp only [show (setPeriodStatus db pid
            PayPeriodStatus.PROCESSING).timeClocks = db.timeClocks from rfl,
          show (setPeriodStatus db pid
            PayPeriodStatus.PROCESSING).payCalculations = db.payCalculations
            from rfl, Nat.zero_add] at h4
        rw [hcalc]
        simp only []
        refine ⟨?_, ?_, ?_⟩
        · exact periodStatus_setPeriodStatus db2 pid PayPeriodStatus.COMPLETED
            _ h2pp
        · exact h4.1
        · rw [h4.1]
          exact h4.2
      · intro e he
        rw [hcalc] at he
        simp only [] at he
        cases he
    | error e0 =>
      constructor
      · intro n hn
        rw [hcalc] at hn
        simp only [] at hn
        cases hn
      · intro e he
        rw [hcalc]
        simp only []
        refine ⟨?_, ?_⟩
        · exact periodStatus_setPeriodStatus db2 pid PayPeriodStatus.DRAFT
            _ h2pp
        · exact hloop.2.2.1

/-- Witness for C4: a successful run over an existing period ends
COMPLETED with count 0 when no employee qualifies. -/
theorem claim_C4_witness :
    periodStatus (calculatePayroll exDB4 0 (fun _ => false)).1 0
      = some PayPeriodStatus.COMPLETED ∧
    (calculatePayroll exDB4 0 (fun _ => false)).2 = Except.ok 0 :=
  ⟨(((claim_C4_theorem exDB4 0 (fun _ => false)).2
      ⟨0, 0, 20160, PayPeriodType.BI_WEEKLY, PayPeriodStatus.DRAFT⟩ rfl).1
      0 rfl).1, rfl⟩

/-- A boundary-inclusive intersection always passes the three-way overlap
test (for any stored period and any query range). -/
theorem intersect_imp_overlapTest (s e : Int) (p : PayPeriod)
    (h : p.startDate ≤ e ∧ s ≤ p.endDate) : overlapTest s e p = true := by
  simp only [overlapTest, Bool.or_eq_true, Bool.and_eq_true, decide_eq_true_eq]
  omega

/-- Well-formedness depends only on the period table and the id counter. -/
theorem wf_of_fields_eq (db db' : DB) (hp : db'.payPeriods = db.payPeriods)
    (hn : db'.nextPeriodId = db.nextPeriodId) (h : PayPeriodsWF db) :
    PayPeriodsWF db' := by
  unfold PayPeriodsWF at *
  rw [hp, hn]
  exact h

/-- A per-row rewrite preserving dates and ids preserves well-formedness. -/
theorem wf_map_same (db : DB) (g : PayPeriod → PayPeriod)
    (hg : ∀ p, (g p).startDate = p.startDate ∧ (g p).endDate = p.endDate ∧
      (g p).id = p.id)
    (h : PayPeriodsWF db) :
    PayPeriodsWF { db with payPeriods := db.payPeriods.map g } := by
  obtain ⟨h1, h2, h3⟩ := h
  refine ⟨?_, ?_, ?_⟩
  · refine List.Pairwise.map g ?_ h1
    intro a b hab hc
    apply hab
    obtain ⟨hc1, hc2⟩ := hc
    rw [(hg a).1, (hg b).2.1] at hc1
    rw [(hg b).1, (hg a).2.1] at hc2
    exact ⟨hc1, hc2⟩
  · have heq : ((fun p : PayPeriod => p.id) ∘ g) = fun p : PayPeriod => p.id :=
      funext fun p => (hg p).2.2
    simp only [List.map_map, heq]
    exact h2
  · intro p hp
    obtain ⟨q, hq, rfl⟩ := List.mem_map.mp hp
    rw [(hg q).2.2]
    exact h3 q hq

/-- Removing rows preserves well-formedness. -/
theorem wf_filter (db : DB) (f : PayPeriod → Bool) (h : PayPeriodsWF db) :
    PayPeriodsWF { db with payPeriods := db.payPeriods.filter f } := by
  obtain ⟨h1, h2, h3⟩ := h
  exact ⟨List.Pairwise.sublist (List.filter_sublist _) h1,
    List.Nodup.sublist (List.Sublist.map _ (List.filter_sublist _)) h2,
    fun p hp => h3 p (List.mem_of_mem_filter hp)⟩

/-- `create` preserves well-formedness: it inserts only after the range
passed the three-way overlap test against every stored period. -/
theorem createPayPeriod_wf (db : DB) (dto : CreatePayPeriodDto)
    (h : PayPeriodsWF db) : PayPeriodsWF (createPayPeriod db dto).1 := by
  unfold createPayPeriod
  split
  · exact h
  · split
    · exact h
    · rename_i hov
      rw [Option.not_isSome_iff_eq_none, List.find?_eq_none] at hov
      obtain ⟨h1, h2, h3⟩ := h
      refine ⟨?_, ?_, ?_⟩
      · rw [List.pairwise_append]
        refine ⟨h1, by simp, ?_⟩
        intro a ha b hb hint
        simp only [List.mem_singleton] at hb
        subst hb
        have ho := hov a ha
        simp only [overlapTest, Bool.or_eq_true, Bool.and_eq_true,
          decide_eq_true_eq] at ho
        obtain ⟨hi1, hi2⟩ := hint
        simp only [] at hi1 hi2
        omega
      · simp only [List.map_append, List.map_cons, List.map_nil]
        rw [List.nodup_append]
        refine ⟨h2, List.nodup_singleton _, ?_⟩
        intro a ha hb
        simp only [List.mem_singleton] at hb
        subst hb
        obtain ⟨q, hq, hqa⟩ := List.mem_map.mp ha
        have := h3 q hq
        omega
      · intro p hp
        rcases List.mem_append.mp hp with hmem | hmem
        · exact Nat.lt_succ_of_lt (h3 p hmem)
        · simp only [List.mem_singleton] at hmem
          subst hmem
          exact Nat.lt_succ_self _

/-- Intersection of date ranges is symmetric. -/
theorem periodsIntersect_symm {p q : PayPeriod}
    (h : periodsIntersect p q) : periodsIntersect q p :=
  ⟨h.2, h.1⟩

/-- Rewriting the unique row with a given id keeps the table pairwise
non-overlapping, provided the new range avoids every other row. -/
theorem pairwise_update_of_nodup :
    ∀ (l : List PayPeriod) (pid : Nat) (upd : PayPeriod → PayPeriod),
      (l.map (·.id)).Nodup →
      List.Pairwise (fun p q => ¬ periodsIntersect p q) l →
      (∀ p q, p ∈ l → q ∈ l → p.id = pid → q.id ≠ pid →
        ¬ periodsIntersect (upd p) q) →
      List.Pairwise (fun p q => ¬ periodsIntersect p q)
        (l.map (fun p => if p.id = pid then upd p else p)) := by
  intro l
  induction l with
  | nil => intro pid upd _ _ _; simp
  | cons x xs ih =>
    intro pid upd hnd hpw hnew
    rw [List.map_cons, List.nodup_cons] at hnd
    obtain ⟨hx_notin, hnd_tail⟩ := hnd
    obtain ⟨hx_others, hpw_tail⟩ := List.pairwise_cons.mp hpw
    rw [List.map_cons]
    refine List.pairwise_cons.mpr ⟨?_, ih pid upd hnd_tail hpw_tail ?_⟩
    · intro y' hy'
      obtain ⟨y, hy, rfl⟩ := List.mem_map.mp hy'
      by_cases hxid : x.id = pid
      · have hyid : y.id ≠ pid := by
          intro hc
          exact hx_notin (by
            rw [hxid, ← hc]
            exact List.mem_map_of_mem _ hy)
        simp only [if_pos hxid, if_neg hyid]
        exact hnew x y (List.mem_cons_self _ _) (List.mem_cons_of_mem _ hy)
          hxid hyid
      · simp only [if_neg hxid]
        by_cases hyid : y.id = pid
        · simp only [if_pos hyid]
          intro hc
          exact hnew y x (List.mem_cons_of_mem _ hy) (List.mem_cons_self _ _)
            hyid hxid (periodsIntersect_symm hc)
        · simp only [if_neg hyid]
          exact hx_others y hy
    · intro p q hp hq hpid hqid
      exact hnew p q (List.mem_cons_of_mem _ hp) (List.mem_cons_of_mem _ hq)
        hpid hqid

/-- An update DTO never changes the row id. -/
theorem applyUpdateDto_id (dto : UpdatePayPeriodDto) (p : PayPeriod) :
    (applyUpdateDto dto p).id = p.id := rfl

/-- `update` preserves well-formedness: date changes re-run the overlap
test excluding the period itself, and date-free updates keep all ranges. -/
theorem updatePayPeriod_wf (db : DB) (id : Nat) (dto : UpdatePayPeriodDto)
    (h : PayPeriodsWF db) : PayPeriodsWF (updatePayPeriod db id dto).1 := by
  unfold updatePayPeriod
  cases hf : findPeriod db id with
  | none => exact h
  | some p =>
    have hpid : p.id = id := by simpa using List.find?_some hf
    have hpmem : p ∈ db.payPeriods := List.mem_of_find?_eq_some hf
    have hgid : ∀ q : PayPeriod,
        ((fun q => if q.id = id then applyUpdateDto dto q else q) q).id
          = q.id := by
      intro q
      by_cases hi : q.id = id
      · simp [hi, applyUpdateDto_id]
      · simp [hi]
    split
    · exact h
    · rename_i x q hqe
      injection hqe with hqe'
      subst hqe'
      split
      · exact h
      · split
        · dsimp only
          split
          · exact h
          · split
            · exact h
            · rename_i hov
              rw [Option.not_isSome_iff_eq_none, List.find?_eq_none] at hov
              obtain ⟨h1, h2, h3⟩ := h
              refine ⟨?_, ?_, ?_⟩
              · refine pairwise_update_of_nodup db.payPeriods id
                  (applyUpdateDto dto) h2 h1 ?_
                intro p' q hp' hq hpid' hqid hint
                have hpeq : p' = p :=
                  List.inj_on_of_nodup_map h2 hp' hpmem (by rw [hpid', hpid])
                subst hpeq
                have ho := hov q hq
                simp only [Bool.and_eq_true, Bool.not_eq_true',
                  beq_eq_false_iff_ne, ne_eq, not_and] at ho
                exact ho hqid (intersect_imp_overlapTest _ _ q ⟨hint.2, hint.1⟩)
              · have heq : ((fun q : PayPeriod => q.id) ∘
                    (fun q => if q.id = id then applyUpdateDto dto q else q))
                    = fun q : PayPeriod => q.id := funext fun q => hgid q
                simp only [List.map_map, heq]
                exact h2
              · intro q hq
                obtain ⟨q', hq', rfl⟩ := List.mem_map.mp hq
                rw [hgid q']
                exact h3 q' hq'
        · rename_i hnodates
          have hs : dto.startDate = none := by
            rcases hds : dto.startDate with _ | v
            · rfl
            · exact absurd (by simp [hds]) hnodates
          have he : dto.endDate = none := by
            rcases hde : dto.endDate with _ | v
            · rfl
            · exact absurd (by simp [hde]) hnodates
          refine wf_map_same db _ ?_ h
          intro q
          by_cases hi : q.id = id
          · simp [hi, applyUpdateDto, hs, he]
          · simp [hi]

/-- `delete` preserves well-formedness. -/
theorem deletePayPeriod_wf (db : DB) (id : Nat) (h : PayPeriodsWF db) :
    PayPeriodsWF (deletePayPeriod db id).1 := by
  unfold deletePayPeriod
  cases hf : findPeriod db id with
  | none => exact h
  | some p =>
    split
    · exact h
    · split
      · exact h
      · exact wf_filter db _ h

/-- `markAsPaid` only rewrites a status, preserving well-formedness. -/
theorem markAsPaid_wf (db : DB) (id : Nat) (h : PayPeriodsWF db) :
    PayPeriodsWF (markAsPaid db id).1 := by
  unfold markAsPaid
  cases hf : findPeriod db id with
  | none => exact h
  | some p =>
    split
    · exact h
    · split
      · exact h
      · refine wf_map_same db _ ?_ h
        intro q
        by_cases hi : q.id = id
        · simp [hi]
        · simp [hi]

/-- A status write preserves well-formedness. -/
theorem setPeriodStatus_wf (db : DB) (pid : Nat) (st : PayPeriodStatus)
    (h : PayPeriodsWF db) : PayPeriodsWF (setPeriodStatus db pid st) := by
  refine wf_map_same db _ ?_ h
  intro q
  by_cases hi : q.id = pid
  · simp [hi]
  · simp [hi]

/-- The orchestrator loop never touches the period id generator. -/
theorem payrollLoop_nextPeriodId (period : PayPeriod) (f : Nat → Bool) :
    ∀ (emps : List User) (db : DB) (count : Nat),
      (payrollLoop period f emps db count).1.nextPeriodId = db.nextPeriodId := by
  intro emps
  induction emps with
  | nil => intro db count; rfl
  | cons u rest ih =>
    intro db count
    rw [payrollLoop]
    cases hpr : u.payRate with
    | none => exact ih db count
    | some rate =>
      by_cases hrate : rate = 0
      · subst hrate
        simp only [if_pos rfl]
        exact ih db count
      · simp only [if_neg hrate]
        by_cases hlen : (clocksForEmployee db.timeClocks u.id period.startDate
            period.endDate).length = 0
        · simp only [hlen, if_pos rfl]
          exact ih db count
        · simp only [if_neg hlen]
          by_cases hf : f u.id = true
          · simp [hf]
          · simp only [if_neg hf]
            exact ih _ (count + 1)

/-- `calculatePayroll` only rewrites statuses and appends calculations,
preserving well-formedness. -/
theorem calculatePayroll_wf (db : DB) (pid : Nat) (f : Nat → Bool)
    (h : PayPeriodsWF db) : PayPeriodsWF (calculatePayroll db pid f).1 := by
  unfold calculatePayroll
  cases hf : findPeriod db pid with
  | none => exact h
  | some p =>
    dsimp only
    rcases hres : payrollLoop p f
      (db.users.filter (activeEmployeeFilter p.endDate))
      (setPeriodStatus db pid PayPeriodStatus.PROCESSING) 0 with ⟨db2, res⟩
    have hpp := (payrollLoop_spec p f
      (db.users.filter (activeEmployeeFilter p.endDate))
      (setPeriodStatus db pid PayPeriodStatus.PROCESSING) 0).1
    have hni := payrollLoop_nextPeriodId p f
      (db.users.filter (activeEmployeeFilter p.endDate))
      (setPeriodStatus db pid PayPeriodStatus.PROCESSING) 0
    rw [hres] at hpp hni
    have h2 : PayPeriodsWF db2 := by
      refine wf_of_fields_eq (setPeriodStatus db pid PayPeriodStatus.PROCESSING)
        db2 ?_ ?_ (setPeriodStatus_wf db pid PayPeriodStatus.PROCESSING h)
      · exact hpp
      · exact hni
    cases res with
    | ok n => exact setPeriodStatus_wf db2 pid PayPeriodStatus.COMPLETED h2
    | error e => exact setPeriodStatus_wf db2 pid PayPeriodStatus.DRAFT h2

/-- `addAdjustment` never touches the period table. -/
theorem addAdjustment_periods_eq (db : DB) (dto : PayAdjustmentDto)
    (incFails : Bool) :
    (addAdjustment db dto incFails).1.payPeriods = db.payPeriods ∧
    (addAdjustment db dto incFails).1.nextPeriodId = db.nextPeriodId := by
  unfold addAdjustment
  split
  · exact ⟨rfl, rfl⟩
  · split
    · exact ⟨rfl, rfl⟩
    · split
      · exact ⟨rfl, rfl⟩
      · dsimp only
        split
        · exact ⟨rfl, rfl⟩
        · exact ⟨rfl, rfl⟩

/-- `addAdjustment` preserves well-formedness. -/
theorem addAdjustment_wf (db : DB) (dto : PayAdjustmentDto) (incFails : Bool)
    (h : PayPeriodsWF db) : PayPeriodsWF (addAdjustment db dto incFails).1 :=
  wf_of_fields_eq db _ (addAdjustment_periods_eq db dto incFails).1
    (addAdjustment_periods_eq db dto incFails).2 h

/-- Claim C9: `create` rejects (with `ValidationError` and no state change)
any request whose range passes the three-way overlap test against a stored
period, and every operation of the payroll feature — create, update,
delete, calculatePayroll, addAdjustment, markAsPaid, on any state and with
any failure-oracle outcome — preserves well-formedness of the pay-period
table: pairwise boundary-inclusive non-overlap of the stored
`[startDate, endDate]` ranges (plus distinct ids below the id generator). -/
theorem claim_C9_theorem :
    (∀ (db : DB) (dto : CreatePayPeriodDto) (p : PayPeriod),
      p ∈ db.payPeriods → overlapTest dto.startDate dto.endDate p = true →
      createPayPeriod db dto = (db, Except.error PError.validation)) ∧
    ∀ (op : PayrollOp) (db : DB), PayPeriodsWF db →
      PayPeriodsWF (applyOp op db) := by
  constructor
  · intro db dto p hp hov
    unfold createPayPeriod
    split
    · rfl
    · rw [if_pos]
      · rw [List.find?_isSome]
        exact ⟨p, hp, hov⟩
  · intro op db h
    cases op with
    | create dto => exact createPayPeriod_wf db dto h
    | update id dto => exact updatePayPeriod_wf db id dto h
    | delete id => exact deletePayPeriod_wf db id h
    | calculate pid f => exact calculatePayroll_wf db pid f h
    | adjust dto incFails => exact addAdjustment_wf db dto incFails h
    | markPaid id => exact markAsPaid_wf db id h

/-- Witness for C9: an overlapping creation request against a concrete
store is rejected unchanged, and a disjoint creation preserves
well-formedness. -/
theorem claim_C9_witness :
    createPayPeriod exDB9 exCre9 = (exDB9, Except.error PError.validation) ∧
    PayPeriodsWF (applyOp (PayrollOp.create exCre9b) exDB9) :=
  ⟨claim_C9_theorem.1 exDB9 exCre9
      ⟨0, 0, 144000, PayPeriodType.MONTHLY, PayPeriodStatus.DRAFT⟩
      (by simp [exDB9]) (by decide),
    claim_C9_theorem.2 (PayrollOp.create exCre9b) exDB9 (by decide)⟩
